import Mathlib

/-!
Verification development for the GPIO configuration module (`src/gpio/mod.rs`).

The module defines the pin-function data model (`InputPull`, `PinFunction`),
the persisted configuration container (`GPIOConfig`), JSON (de)serialization
via serde derive (`GPIOConfig::load` / `GPIOConfig::save`), and human-readable
`Display` renderings.  The embedding below models:

  * the Rust enums and the `GPIOConfig` struct as Lean inductives/structures
    (`u8` becomes `Fin 256`);
  * serde_json documents as an explicit `Json` value type, with a byte-level
    renderer (`renderJson`, the compact `serde_json::to_string` format) and a
    byte-level parser (`parseAny`/`parseJson`, modelling `serde_json`'s reader);
  * the derived externally-tagged serde encodings of the enums and the struct
    (`serPinFunction`, `deserPinFunction`, `serGPIOConfig`, `deserGPIOConfig`);
  * the filesystem as a map from path to optional file contents, with
    `GPIOConfig.load`/`GPIOConfig.save` threading it explicitly; and
  * the `Display` impls (`pinFunctionDisplay`, `gpioConfigDisplay`).
-/

/-- Rust `pub type BCMPinNumber = u8;` — an unsigned 8-bit channel number. -/
abbrev BCMPinNumber := Fin 256

/-- Rust `pub type BoardPinNumber = u8;`. -/
abbrev BoardPinNumber := Fin 256

/-- Rust `pub type PinLevel = bool;`. -/
abbrev PinLevel := Bool

/-- Rust enum `InputPull`: optional pull-up / pull-down of an input. -/
inductive InputPull where
  | PullUp
  | PullDown
  | None
deriving DecidableEq, Repr

/-- Rust enum `PinFunction` from `src/gpio/mod.rs` lines 48-118: every function
a pin may be assigned.  `Input` and `Output` carry payloads; all other
variants are inert markers. -/
inductive PinFunction where
  | None
  | Power3V3
  | Power5V
  | Ground
  | Input (pull : Option InputPull)
  | Output (level : Option PinLevel)
  | GPCLK0
  | GPCLK1
  | GPCLK2
  | I2C1_SDA
  | I2C1_SCL
  | I2C3_SDA
  | I2C3_SCL
  | I2C4_SDA
  | I2C4_SCL
  | I2C5_SDA
  | I2C5_SCL
  | I2C6_SDA
  | I2C6_SCL
  | SPI0_MOSI
  | SPI0_MOMI
  | SPI0_MISO
  | SPI0_SCLK
  | SPI0_CE0_N
  | SPI0_CE1_N
  | SPI1_MOSI
  | SPI1_MOMI
  | SPI1_MISO
  | SPI1_SCLK
  | SPI1_CE0_N
  | SPI1_CE1_N
  | SPI1_CE2_N
  | PWM0
  | PWM1
  | UART0_TXD
  | UART0_RXD
  | PCM_FS
  | PCM_DIN
  | PCM_DOUT
  | PCM_CLK
  | I2C_EEPROM_ID_SD
  | I2C_EEPROM_ID_SC
deriving DecidableEq, Repr

/-- Rust derived `Debug` output for `InputPull` (used inside `PinFunction`'s
debug output). -/
def inputPullDebug : InputPull → String
  | .PullUp => "PullUp"
  | .PullDown => "PullDown"
  | .None => "None"

/-- Rust derived `Debug` output for `PinFunction` (`format!("{:?}", self)`). -/
def pinFunctionDebug : PinFunction → String
  | .None => "None"
  | .Power3V3 => "Power3V3"
  | .Power5V => "Power5V"
  | .Ground => "Ground"
  | .Input none => "Input(None)"
  | .Input (some p) => "Input(Some(" ++ inputPullDebug p ++ "))"
  | .Output none => "Output(None)"
  | .Output (some true) => "Output(Some(true))"
  | .Output (some false) => "Output(Some(false))"
  | .GPCLK0 => "GPCLK0"
  | .GPCLK1 => "GPCLK1"
  | .GPCLK2 => "GPCLK2"
  | .I2C1_SDA => "I2C1_SDA"
  | .I2C1_SCL => "I2C1_SCL"
  | .I2C3_SDA => "I2C3_SDA"
  | .I2C3_SCL => "I2C3_SCL"
  | .I2C4_SDA => "I2C4_SDA"
  | .I2C4_SCL => "I2C4_SCL"
  | .I2C5_SDA => "I2C5_SDA"
  | .I2C5_SCL => "I2C5_SCL"
  | .I2C6_SDA => "I2C6_SDA"
  | .I2C6_SCL => "I2C6_SCL"
  | .SPI0_MOSI => "SPI0_MOSI"
  | .SPI0_MOMI => "SPI0_MOMI"
  | .SPI0_MISO => "SPI0_MISO"
  | .SPI0_SCLK => "SPI0_SCLK"
  | .SPI0_CE0_N => "SPI0_CE0_N"
  | .SPI0_CE1_N => "SPI0_CE1_N"
  | .SPI1_MOSI => "SPI1_MOSI"
  | .SPI1_MOMI => "SPI1_MOMI"
  | .SPI1_MISO => "SPI1_MISO"
  | .SPI1_SCLK => "SPI1_SCLK"
  | .SPI1_CE0_N => "SPI1_CE0_N"
  | .SPI1_CE1_N => "SPI1_CE1_N"
  | .SPI1_CE2_N => "SPI1_CE2_N"
  | .PWM0 => "PWM0"
  | .PWM1 => "PWM1"
  | .UART0_TXD => "UART0_TXD"
  | .UART0_RXD => "UART0_RXD"
  | .PCM_FS => "PCM_FS"
  | .PCM_DIN => "PCM_DIN"
  | .PCM_DOUT => "PCM_DOUT"
  | .PCM_CLK => "PCM_CLK"
  | .I2C_EEPROM_ID_SD => "I2C_EEPROM_ID_SD"
  | .I2C_EEPROM_ID_SC => "I2C_EEPROM_ID_SC"

/-- Rust `str::split_once(sep)`: split at the first occurrence of `sep`,
returning the parts before and after it, or `none` if `sep` does not occur. -/
def splitOnce (sep : Char) : List Char → Option (List Char × List Char)
  | [] => none
  | c :: cs =>
    if c = sep then some ([], cs)
    else (splitOnce sep cs).map (fun p => (c :: p.1, p.2))

/-- `impl fmt::Display for PinFunction` (lines 120-126): format the debug
output, then keep only what precedes the first opening parenthesis
(`full.split_once('(').unwrap_or((&full, "")).0`). -/
def pinFunctionDisplay (f : PinFunction) : String :=
  match splitOnce '(' (pinFunctionDebug f).data with
  | some p => String.mk p.1
  | none => pinFunctionDebug f

/-- The serde variant tag of a `PinFunction`, i.e. the variant's name as used
by the derived `Serialize`/`Deserialize` impls. -/
def pinFunctionTag : PinFunction → String
  | .None => "None"
  | .Power3V3 => "Power3V3"
  | .Power5V => "Power5V"
  | .Ground => "Ground"
  | .Input _ => "Input"
  | .Output _ => "Output"
  | .GPCLK0 => "GPCLK0"
  | .GPCLK1 => "GPCLK1"
  | .GPCLK2 => "GPCLK2"
  | .I2C1_SDA => "I2C1_SDA"
  | .I2C1_SCL => "I2C1_SCL"
  | .I2C3_SDA => "I2C3_SDA"
  | .I2C3_SCL => "I2C3_SCL"
  | .I2C4_SDA => "I2C4_SDA"
  | .I2C4_SCL => "I2C4_SCL"
  | .I2C5_SDA => "I2C5_SDA"
  | .I2C5_SCL => "I2C5_SCL"
  | .I2C6_SDA => "I2C6_SDA"
  | .I2C6_SCL => "I2C6_SCL"
  | .SPI0_MOSI => "SPI0_MOSI"
  | .SPI0_MOMI => "SPI0_MOMI"
  | .SPI0_MISO => "SPI0_MISO"
  | .SPI0_SCLK => "SPI0_SCLK"
  | .SPI0_CE0_N => "SPI0_CE0_N"
  | .SPI0_CE1_N => "SPI0_CE1_N"
  | .SPI1_MOSI => "SPI1_MOSI"
  | .SPI1_MOMI => "SPI1_MOMI"
  | .SPI1_MISO => "SPI1_MISO"
  | .SPI1_SCLK => "SPI1_SCLK"
  | .SPI1_CE0_N => "SPI1_CE0_N"
  | .SPI1_CE1_N => "SPI1_CE1_N"
  | .SPI1_CE2_N => "SPI1_CE2_N"
  | .PWM0 => "PWM0"
  | .PWM1 => "PWM1"
  | .UART0_TXD => "UART0_TXD"
  | .UART0_RXD => "UART0_RXD"
  | .PCM_FS => "PCM_FS"
  | .PCM_DIN => "PCM_DIN"
  | .PCM_DOUT => "PCM_DOUT"
  | .PCM_CLK => "PCM_CLK"
  | .I2C_EEPROM_ID_SD => "I2C_EEPROM_ID_SD"
  | .I2C_EEPROM_ID_SC => "I2C_EEPROM_ID_SC"

/-- Rust struct `GPIOConfig` (lines 149-152): a vector of
`(bcm_pin_number, PinFunction)` tuples, order preserved. -/
structure GPIOConfig where
  configured_pins : List (BCMPinNumber × PinFunction)
deriving DecidableEq, Repr

/-- Derived `Default` for `GPIOConfig`: field-wise default, and
`Vec::default()` is the empty vector. -/
def GPIOConfig.default : GPIOConfig := ⟨[]⟩

/-- One line of `GPIOConfig`'s `Display` output:
`writeln!(f, "\tBCM Pin #: {bcm_pin_number} - {}", pin_function)`. -/
def pinLine (p : BCMPinNumber × PinFunction) : String :=
  "\tBCM Pin #: " ++ toString p.1.val ++ " - " ++ pinFunctionDisplay p.2 ++ "\n"

/-- `impl fmt::Display for GPIOConfig` (lines 154-166): a fixed message when
no pins are configured, otherwise a header line followed by one line per
entry, written in order by the loop over `configured_pins`. -/
def gpioConfigDisplay (c : GPIOConfig) : String :=
  if c.configured_pins.isEmpty then "No Pins are Configured\n"
  else c.configured_pins.foldl (fun acc p => acc ++ pinLine p) "Configured Pins:\n"

/-- JSON documents, as produced and consumed by `serde_json`.  Strings are
kept as character lists to stay close to the byte-level renderer/parser. -/
inductive Json where
  | null
  | bool (b : Bool)
  | num (n : Int)
  | str (s : List Char)
  | arr (xs : List Json)
  | obj (ms : List (List Char × Json))

/-- The decimal digit character for `d < 10`. -/
def digitChar (d : Nat) : Char := Char.ofNat (48 + d)

/-- The numeric value of a decimal digit character. -/
def digitVal (c : Char) : Nat := c.toNat - 48

/-- Big-endian decimal digits of `n`, with explicit fuel (any `fuel ≥ n`
suffices); `[]` for `n = 0`. -/
def natCharsAux : Nat → Nat → List Char
  | 0, _ => []
  | fuel+1, n => if n = 0 then [] else natCharsAux fuel (n / 10) ++ [digitChar (n % 10)]

/-- Decimal rendering of a natural number. -/
def natChars (n : Nat) : List Char := if n = 0 then ['0'] else natCharsAux n n

/-- Decimal rendering of an integer (serde_json renders integers in plain
decimal). -/
def renderInt (n : Int) : List Char :=
  if n < 0 then '-' :: natChars n.natAbs else natChars n.toNat

/-- Lower-case hexadecimal digit character. -/
def hexChar (d : Nat) : Char := if d < 10 then digitChar d else Char.ofNat (87 + d)

/-- serde_json's escaping of one character inside a JSON string literal. -/
def escapeChar (c : Char) : List Char :=
  if c = '\x22' then ['\\', '\x22']
  else if c = '\\' then ['\\', '\\']
  else if c = '\n' then ['\\', 'n']
  else if c = '\r' then ['\\', 'r']
  else if c = '\t' then ['\\', 't']
  else if c.toNat < 32 then ['\\', 'u', '0', '0', hexChar (c.toNat / 16), hexChar (c.toNat % 16)]
  else [c]

/-- serde_json's escaping of a whole string body. -/
def escapeStr (s : List Char) : List Char := (s.map escapeChar).flatten

mutual

/-- Compact rendering of a JSON document, as `serde_json::to_string`
produces it: no whitespace, keys and strings quoted and escaped. -/
def renderJson : Json → List Char
  | .null => "null".data
  | .bool true => "true".data
  | .bool false => "false".data
  | .num n => renderInt n
  | .str s => '\x22' :: escapeStr s ++ ['\x22']
  | .arr xs => '[' :: renderElemsJson xs ++ [']']
  | .obj ms => '\x7b' :: renderMembersJson ms ++ ['\x7d']

/-- Comma-separated rendering of array elements. -/
def renderElemsJson : List Json → List Char
  | [] => []
  | [x] => renderJson x
  | x :: y :: xs => renderJson x ++ ',' :: renderElemsJson (y :: xs)

/-- Comma-separated rendering of object members. -/
def renderMembersJson : List (List Char × Json) → List Char
  | [] => []
  | [(k, v)] => ('\x22' :: escapeStr k ++ ['\x22']) ++ ':' :: renderJson v
  | (k, v) :: m :: ms =>
      (('\x22' :: escapeStr k ++ ['\x22']) ++ ':' :: renderJson v) ++ ',' :: renderMembersJson (m :: ms)

end

/-- Derived `Serialize` for `InputPull`: a unit variant serializes as its
quoted tag name. -/
def serInputPull : InputPull → Json
  | .PullUp => .str "PullUp".data
  | .PullDown => .str "PullDown".data
  | .None => .str "None".data

/-- Derived `Serialize` for `PinFunction` (externally tagged): inert variants
serialize as the quoted tag name; `Input`/`Output` serialize as a one-entry
map from the tag to the payload, with `Option` payloads as `null` or the
inner value. -/
def serPinFunction : PinFunction → Json
  | .Input none => .obj [("Input".data, .null)]
  | .Input (some p) => .obj [("Input".data, serInputPull p)]
  | .Output none => .obj [("Output".data, .null)]
  | .Output (some b) => .obj [("Output".data, .bool b)]
  | f => .str (pinFunctionTag f).data

/-- Serialization of one `configured_pins` entry: a tuple serializes as a
two-element JSON array. -/
def pinJson (e : BCMPinNumber × PinFunction) : Json :=
  .arr [.num (e.1.val : Int), serPinFunction e.2]

/-- Derived `Serialize` for `GPIOConfig`: a struct serializes as a map from
field name to field value; the `Vec` serializes as a JSON array. -/
def serGPIOConfig (c : GPIOConfig) : Json :=
  .obj [("configured_pins".data, .arr (c.configured_pins.map pinJson))]

/-- JSON insignificant whitespace. -/
def isWsChar (c : Char) : Bool := c = ' ' || c = '\t' || c = '\n' || c = '\r'

/-- Skip leading whitespace. -/
def skipWs : List Char → List Char
  | [] => []
  | c :: cs => if isWsChar c then skipWs cs else c :: cs

/-- Consume a run of decimal digits, folding them onto the accumulator. -/
def parseDigits : List Char → Nat → Nat × List Char
  | [], acc => (acc, [])
  | c :: cs, acc => if c.isDigit then parseDigits cs (acc * 10 + digitVal c) else (acc, c :: cs)

/-- Parse an unsigned decimal number (at least one digit required). -/
def parseNumBody : List Char → Except String (Nat × List Char)
  | [] => .error "unexpected end of input, expected a digit"
  | c :: cs =>
    if c.isDigit then .ok (parseDigits cs (digitVal c))
    else .error "expected a digit"

/-- serde_json's unescaping of a character following a backslash inside a
string (`\uXXXX` escapes are not modelled: the schema's tag and key strings
are plain ASCII and never produce them). -/
def unescapeChar (c : Char) : Option Char :=
  if c = '\x22' then some '\x22'
  else if c = '\\' then some '\\'
  else if c = '/' then some '/'
  else if c = 'n' then some '\n'
  else if c = 'r' then some '\r'
  else if c = 't' then some '\t'
  else if c = 'b' then some (Char.ofNat 8)
  else if c = 'f' then some (Char.ofNat 12)
  else none

/-- Worker for `parseStringBody`: the flag records whether the previous
character was an unconsumed backslash (i.e. we are inside an escape). -/
def parseStringGo : Bool → List Char → Except String (List Char × List Char)
  | true, [] => .error "unexpected end of input in escape"
  | true, e :: cs =>
    match unescapeChar e with
    | some c2 =>
      match parseStringGo false cs with
      | .ok p => .ok (c2 :: p.1, p.2)
      | .error msg => .error msg
    | none => .error "unsupported escape"
  | false, [] => .error "unexpected end of input in string"
  | false, c :: cs =>
    if c = '\x22' then .ok ([], cs)
    else if c = '\\' then parseStringGo true cs
    else if c.toNat < 32 then .error "control character in string"
    else
      match parseStringGo false cs with
      | .ok p => .ok (c :: p.1, p.2)
      | .error msg => .error msg

/-- Parse the body of a JSON string after the opening quote, up to and
including the closing quote; raw control characters are rejected. -/
def parseStringBody (cs : List Char) : Except String (List Char × List Char) :=
  parseStringGo false cs

/-- Which production `parseAny` is parsing: a single value, the elements of
an array after `[`, or the members of an object after `\x7b`. -/
inductive PMode where
  | value
  | elems
  | members

/-- Result of `parseAny`, depending on the mode. -/
inductive PRes where
  | v (j : Json)
  | es (xs : List Json)
  | ms (kvs : List (List Char × Json))

/-- Recursive-descent JSON parser (modelling `serde_json`'s reader), with
explicit fuel bounding the recursion depth.  Returns the parsed production
and the unconsumed remainder of the input. -/
def parseAny : Nat → PMode → List Char → Except String (PRes × List Char)
  | 0, _, _ => .error "recursion limit exceeded"
  | fuel+1, .value, cs =>
    match skipWs cs with
    | [] => .error "unexpected end of input"
    | c :: rest =>
      if c = 'n' then
        match rest with
        | 'u' :: 'l' :: 'l' :: r => .ok (.v .null, r)
        | _ => .error "expected null"
      else if c = 't' then
        match rest with
        | 'r' :: 'u' :: 'e' :: r => .ok (.v (.bool true), r)
        | _ => .error "expected true"
      else if c = 'f' then
        match rest with
        | 'a' :: 'l' :: 's' :: 'e' :: r => .ok (.v (.bool false), r)
        | _ => .error "expected false"
      else if c = '\x22' then
        match parseStringBody rest with
        | .ok p => .ok (.v (.str p.1), p.2)
        | .error e => .error e
      else if c = '[' then
        match skipWs rest with
        | [] => .error "unexpected end of input in array"
        | c2 :: r2 =>
          if c2 = ']' then .ok (.v (.arr []), r2)
          else
            match parseAny fuel .elems (c2 :: r2) with
            | .ok (.es xs, r3) => .ok (.v (.arr xs), r3)
            | .ok _ => .error "internal mode mismatch"
            | .error e => .error e
      else if c = '\x7b' then
        match skipWs rest with
        | [] => .error "unexpected end of input in object"
        | c2 :: r2 =>
          if c2 = '\x7d' then .ok (.v (.obj []), r2)
          else
            match parseAny fuel .members (c2 :: r2) with
            | .ok (.ms ms, r3) => .ok (.v (.obj ms), r3)
            | .ok _ => .error "internal mode mismatch"
            | .error e => .error e
      else if c = '-' then
        match parseNumBody rest with
        | .ok p => .ok (.v (.num (-(p.1 : Int))), p.2)
        | .error e => .error e
      else if c.isDigit then
        match parseNumBody (c :: rest) with
        | .ok p => .ok (.v (.num (p.1 : Int)), p.2)
        | .error e => .error e
      else .error "unexpected character"
  | fuel+1, .elems, cs =>
    match parseAny fuel .value cs with
    | .error e => .error e
    | .ok (.v j, r) =>
      match skipWs r with
      | ',' :: r2 =>
        match parseAny fuel .elems r2 with
        | .ok (.es xs, r3) => .ok (.es (j :: xs), r3)
        | .ok _ => .error "internal mode mismatch"
        | .error e => .error e
      | ']' :: r2 => .ok (.es [j], r2)
      | _ => .error "expected comma or closing bracket"
    | .ok _ => .error "internal mode mismatch"
  | fuel+1, .members, cs =>
    match cs with
    | '\x22' :: r =>
      match parseStringBody r with
      | .error e => .error e
      | .ok (k, r1) =>
        match skipWs r1 with
        | ':' :: r2 =>
          match parseAny fuel .value r2 with
          | .ok (.v j, r3) =>
            match skipWs r3 with
            | ',' :: r4 =>
              match parseAny fuel .members (skipWs r4) with
              | .ok (.ms ms, r5) => .ok (.ms ((k, j) :: ms), r5)
              | .ok _ => .error "internal mode mismatch"
              | .error e => .error e
            | '\x7d' :: r4 => .ok (.ms [(k, j)], r4)
            | _ => .error "expected comma or closing brace"
          | .ok _ => .error "internal mode mismatch"
          | .error e => .error e
        | _ => .error "expected colon"
    | _ => .error "expected string key"

/-- Parse a complete JSON document: one value, with nothing but whitespace
after it.  The fuel `8 * length + 8` bounds the recursion depth generously
(every recursion level consumes input). -/
def parseJson (cs : List Char) : Except String Json :=
  match parseAny (8 * cs.length + 8) .value cs with
  | .error e => .error e
  | .ok (.v j, rest) =>
    if (skipWs rest).isEmpty then .ok j else .error "trailing characters"
  | .ok _ => .error "internal mode mismatch"

/-- Derived `Deserialize` for `InputPull`: a unit-only enum deserializes from
its quoted tag name (or from a one-entry map from the tag to `null`). -/
def deserInputPull (j : Json) : Except String InputPull :=
  match j with
  | .str s =>
    match String.mk s with
    | "PullUp" => .ok .PullUp
    | "PullDown" => .ok .PullDown
    | "None" => .ok .None
    | _ => .error "unknown variant for InputPull"
  | .obj [(k, .null)] =>
    match String.mk k with
    | "PullUp" => .ok .PullUp
    | "PullDown" => .ok .PullDown
    | "None" => .ok .None
    | _ => .error "unknown variant for InputPull"
  | _ => .error "invalid type, expected InputPull"

/-- `Option<InputPull>` deserialization: `null` is `None`, anything else is
`Some` of the inner deserialization. -/
def deserOptionInputPull (j : Json) : Except String (Option InputPull) :=
  match j with
  | .null => .ok none
  | j =>
    match deserInputPull j with
    | .ok p => .ok (some p)
    | .error e => .error e

/-- `Option<PinLevel>` deserialization: `null`, or a boolean. -/
def deserOptionLevel (j : Json) : Except String (Option PinLevel) :=
  match j with
  | .null => .ok none
  | .bool b => .ok (some b)
  | _ => .error "invalid type, expected a boolean level"

/-- The inert (payload-free) `PinFunction` variant named by `s`, if any. -/
def unitTag (s : List Char) : Option PinFunction :=
  match String.mk s with
  | "None" => some .None
  | "Power3V3" => some .Power3V3
  | "Power5V" => some .Power5V
  | "Ground" => some .Ground
  | "GPCLK0" => some .GPCLK0
  | "GPCLK1" => some .GPCLK1
  | "GPCLK2" => some .GPCLK2
  | "I2C1_SDA" => some .I2C1_SDA
  | "I2C1_SCL" => some .I2C1_SCL
  | "I2C3_SDA" => some .I2C3_SDA
  | "I2C3_SCL" => some .I2C3_SCL
  | "I2C4_SDA" => some .I2C4_SDA
  | "I2C4_SCL" => some .I2C4_SCL
  | "I2C5_SDA" => some .I2C5_SDA
  | "I2C5_SCL" => some .I2C5_SCL
  | "I2C6_SDA" => some .I2C6_SDA
  | "I2C6_SCL" => some .I2C6_SCL
  | "SPI0_MOSI" => some .SPI0_MOSI
  | "SPI0_MOMI" => some .SPI0_MOMI
  | "SPI0_MISO" => some .SPI0_MISO
  | "SPI0_SCLK" => some .SPI0_SCLK
  | "SPI0_CE0_N" => some .SPI0_CE0_N
  | "SPI0_CE1_N" => some .SPI0_CE1_N
  | "SPI1_MOSI" => some .SPI1_MOSI
  | "SPI1_MOMI" => some .SPI1_MOMI
  | "SPI1_MISO" => some .SPI1_MISO
  | "SPI1_SCLK" => some .SPI1_SCLK
  | "SPI1_CE0_N" => some .SPI1_CE0_N
  | "SPI1_CE1_N" => some .SPI1_CE1_N
  | "SPI1_CE2_N" => some .SPI1_CE2_N
  | "PWM0" => some .PWM0
  | "PWM1" => some .PWM1
  | "UART0_TXD" => some .UART0_TXD
  | "UART0_RXD" => some .UART0_RXD
  | "PCM_FS" => some .PCM_FS
  | "PCM_DIN" => some .PCM_DIN
  | "PCM_DOUT" => some .PCM_DOUT
  | "PCM_CLK" => some .PCM_CLK
  | "I2C_EEPROM_ID_SD" => some .I2C_EEPROM_ID_SD
  | "I2C_EEPROM_ID_SC" => some .I2C_EEPROM_ID_SC
  | _ => Option.none

/-- Derived `Deserialize` for `PinFunction` (externally tagged): a quoted tag
name yields the inert variant of that name; a one-entry map dispatches on the
tag, deserializing the payload for `Input`/`Output` (and requiring `null` for
an inert variant given in map form).  Unknown tags and wrong payload shapes
are errors — there is no defaulting. -/
def deserPinFunction (j : Json) : Except String PinFunction :=
  match j with
  | .str s =>
    match unitTag s with
    | some f => .ok f
    | none =>
      if s = "Input".data || s = "Output".data then
        .error "invalid type: unit variant, expected newtype variant"
      else .error "unknown variant for PinFunction"
  | .obj [(k, v)] =>
    if k = "Input".data then
      match deserOptionInputPull v with
      | .ok p => .ok (.Input p)
      | .error e => .error e
    else if k = "Output".data then
      match deserOptionLevel v with
      | .ok l => .ok (.Output l)
      | .error e => .error e
    else
      match unitTag k with
      | some f =>
        match v with
        | .null => .ok f
        | _ => .error "invalid type for unit variant payload"
      | none => .error "unknown variant for PinFunction"
  | .obj _ => .error "expected a map with a single key"
  | _ => .error "invalid type, expected PinFunction"

/-- `u8` deserialization: an integer in `0..=255`; anything else (including
out-of-range integers) is an `invalid value`/`invalid type` error — serde
never truncates or wraps. -/
def deserU8 (j : Json) : Except String BCMPinNumber :=
  match j with
  | .num n =>
    if h : 0 ≤ n ∧ n < 256 then .ok ⟨n.toNat, by omega⟩
    else .error "invalid value: integer out of range for u8"
  | _ => .error "invalid type, expected u8"

/-- Tuple `(u8, PinFunction)` deserialization: a two-element JSON array. -/
def deserPin (j : Json) : Except String (BCMPinNumber × PinFunction) :=
  match j with
  | .arr [a, b] =>
    match deserU8 a with
    | .error e => .error e
    | .ok n =>
      match deserPinFunction b with
      | .error e => .error e
      | .ok f => .ok (n, f)
  | .arr _ => .error "invalid length, expected a pair"
  | _ => .error "invalid type, expected a pair"

/-- `Vec` element-wise deserialization; the first failure aborts the load. -/
def deserPins : List Json → Except String (List (BCMPinNumber × PinFunction))
  | [] => .ok []
  | j :: js =>
    match deserPin j with
    | .error e => .error e
    | .ok p =>
      match deserPins js with
      | .error e => .error e
      | .ok ps => .ok (p :: ps)

/-- `Vec<(u8, PinFunction)>` deserialization: a JSON array of pairs. -/
def deserVecPins (j : Json) : Except String (List (BCMPinNumber × PinFunction)) :=
  match j with
  | .arr js => deserPins js
  | _ => .error "invalid type, expected a sequence"

/-- Field scan of the derived struct deserializer: walk the map's members,
remembering the `configured_pins` value; duplicate fields are errors, unknown
fields are ignored, and a missing field is an error. -/
def findConfiguredPins : List (List Char × Json) → Option Json → Except String GPIOConfig
  | [], Option.none => .error "missing field configured_pins"
  | [], some v =>
    match deserVecPins v with
    | .ok l => .ok ⟨l⟩
    | .error e => .error e
  | (k, v) :: ms, acc =>
    if k = "configured_pins".data then
      match acc with
      | some _ => .error "duplicate field configured_pins"
      | Option.none => findConfiguredPins ms (some v)
    else findConfiguredPins ms acc

/-- Derived `Deserialize` for `GPIOConfig`: from a map (the usual form), or
from a one-element sequence (serde_json also accepts structs from
sequences). -/
def deserGPIOConfig (j : Json) : Except String GPIOConfig :=
  match j with
  | .obj ms => findConfiguredPins ms Option.none
  | .arr [v] =>
    match deserVecPins v with
    | .ok l => .ok ⟨l⟩
    | .error e => .error e
  | .arr _ => .error "invalid length for struct GPIOConfig"
  | _ => .error "invalid type, expected struct GPIOConfig"

/-- The two failure kinds of `GPIOConfig::load`/`save` (both surface as
`io::Error` in Rust, with serde_json decode errors converted via `From`):
a file-system failure, or a format/decode failure with its message. -/
inductive LoadError where
  | ioErr
  | decode (msg : String)
deriving DecidableEq, Repr

/-- The file system, modelled as a map from path to optional contents. -/
abbrev Fs := String → Option (List Char)

/-- A file system with no files. -/
def emptyFs : Fs := fun _ => Option.none

/-- A file system with a single file at `p` holding `contents`. -/
def fsWith (p : String) (contents : List Char) : Fs :=
  fun q => if q = p then some contents else Option.none

/-- `GPIOConfig::save` (lines 183-187): serialize with
`serde_json::to_string` and write the bytes to `filename`, creating or
truncating the file. -/
def GPIOConfig.save (c : GPIOConfig) (fs : Fs) (filename : String) : Fs :=
  fun p => if p = filename then some (renderJson (serGPIOConfig c)) else fs p

/-- `GPIOConfig::load` (lines 173-178): open the file (an I/O error if it
does not exist), then parse and deserialize its contents with
`serde_json::from_reader`; any format failure propagates as a decode error
and no partial configuration is returned. -/
def GPIOConfig.load (fs : Fs) (filename : String) : Except LoadError GPIOConfig :=
  match fs filename with
  | Option.none => .error .ioErr
  | some contents =>
    match parseJson contents with
    | .error e => .error (.decode e)
    | .ok j =>
      match deserGPIOConfig j with
      | .error e => .error (.decode e)
      | .ok c => .ok c

/-- Whether a load result is a format/decode failure. -/
def isDecodeError : Except LoadError GPIOConfig → Bool
  | .error (.decode _) => true
  | _ => false

/-- A character that needs no escaping inside a JSON string literal. -/
def simpleChar (c : Char) : Bool := !(c = '\x22' || c = '\\' || decide (c.toNat < 32))

/-- A string whose characters all need no escaping. -/
def allSimple (s : List Char) : Bool := s.all simpleChar

/-- The input does not begin with a decimal digit (so a preceding number
parse stops exactly here). -/
def notDigitStart : List Char → Bool
  | [] => true
  | c :: _ => !c.isDigit

/-- Fold decimal digit characters onto an accumulator, mirroring
`parseDigits`. -/
def valFold (a : Nat) (ds : List Char) : Nat :=
  ds.foldl (fun x c => x * 10 + digitVal c) a

/-- Claim C5: the human-readable rendering of every `PinFunction` is the
variant's tag name only, dropping any payload: `Input(Some(PullUp))` renders
as `"Input"`, `Output(Some(true))` renders as `"Output"`, and every inert
variant renders as its tag name. -/
theorem display_drops_payload (f : PinFunction) :
    pinFunctionDisplay f = pinFunctionTag f := by
  cases f <;> try rfl
  case Input p =>
    cases p with
    | none => rfl
    | some q => cases q <;> rfl
  case Output l =>
    cases l with
    | none => rfl
    | some b => cases b <;> rfl

/-- Claim C7: `GPIOConfig::default()` has an empty `configured_pins`
sequence. -/
theorem default_config_empty : GPIOConfig.default.configured_pins = [] := rfl

/-- Claim C2: saving a config with the single entry `(1, Input(None))`
produces exactly the bytes of scenario A, and saving a config with the single
entry `(7, Output(Some(true)))` produces exactly the bytes of scenario B. -/
theorem save_scenarios_exact_bytes :
    (GPIOConfig.save ⟨[(1, .Input none)]⟩ emptyFs "config.piggui") "config.piggui"
      = some ("\x7b\x22configured_pins\x22:[[1,\x7b\x22Input\x22:null\x7d]]\x7d".data)
    ∧ (GPIOConfig.save ⟨[(7, .Output (some true))]⟩ emptyFs "config.piggui") "config.piggui"
      = some ("\x7b\x22configured_pins\x22:[[7,\x7b\x22Output\x22:true\x7d]]\x7d".data) :=
  ⟨rfl, rfl⟩

/-- Claim C3: loading the scenario-C document yields exactly the single entry
`(1, Input(None))`, and loading a two-entry document mapping channel 17 to
`Output(Some(true))` and channel 26 to `Input(Some(PullUp))` yields exactly
those two entries in that order. -/
theorem load_scenarios_exact :
    GPIOConfig.load
        (fsWith "config.piggui"
          ("\x7b\x22configured_pins\x22:[[1,\x7b\x22Input\x22:null\x7d]]\x7d".data))
        "config.piggui"
      = .ok ⟨[(1, .Input none)]⟩
    ∧ GPIOConfig.load
        (fsWith "config.piggui"
          (("\x7b\x22configured_pins\x22:[[17,\x7b\x22Output\x22:true\x7d]," ++
            "[26,\x7b\x22Input\x22:\x22PullUp\x22\x7d]]\x7d").data))
        "config.piggui"
      = .ok ⟨[(17, .Output (some true)), (26, .Input (some .PullUp))]⟩ :=
  ⟨rfl, rfl⟩

/-- Claim C4: loading a document with an unrecognized function tag, or with a
wrong payload shape for a variant, fails with a format/decode error — no
default is substituted and no partial `GPIOConfig` is returned. -/
theorem load_malformed_fails :
    isDecodeError
        (GPIOConfig.load
          (fsWith "config.piggui"
            ("\x7b\x22configured_pins\x22:[[1,\x22Foo\x22]]\x7d".data))
          "config.piggui")
      = true
    ∧ isDecodeError
        (GPIOConfig.load
          (fsWith "config.piggui"
            ("\x7b\x22configured_pins\x22:[[1,\x7b\x22Output\x22:\x22PullUp\x22\x7d]]\x7d".data))
          "config.piggui")
      = true :=
  ⟨rfl, rfl⟩

/-- Claim C9: channel numbers are 8-bit — loading a document whose entry has
channel number 256 fails with the u8 out-of-range decode error rather than
truncating or wrapping the number. -/
theorem oversized_channel_rejected :
    GPIOConfig.load
        (fsWith "config.piggui"
          ("\x7b\x22configured_pins\x22:[[256,\x22Ground\x22]]\x7d".data))
        "config.piggui"
      = .error (.decode "invalid value: integer out of range for u8") :=
  rfl

/-- Claim C8: channel-number uniqueness is not enforced — a config with two
entries sharing channel 4 is accepted, saved with both entries present in
order, and loaded back with both duplicate entries present in order. -/
theorem duplicate_channels_preserved :
    (GPIOConfig.save ⟨[(4, .Ground), (4, .Input none)]⟩ emptyFs "config.piggui")
        "config.piggui"
      = some ("\x7b\x22configured_pins\x22:[[4,\x22Ground\x22],[4,\x7b\x22Input\x22:null\x7d]]\x7d".data)
    ∧ GPIOConfig.load
        (GPIOConfig.save ⟨[(4, .Ground), (4, .Input none)]⟩ emptyFs "config.piggui")
        "config.piggui"
      = .ok ⟨[(4, .Ground), (4, .Input none)]⟩ :=
  ⟨rfl, rfl⟩

/-- Claim C10: loading `[5, \x7b"Input":"None"\x7d]` yields
`(5, Input(Some(InputPull::None)))`, which is a different `PinFunction` value
from `PinFunction::None`, and the two serialize to different encodings. -/
theorem input_pull_none_distinct :
    GPIOConfig.load
        (fsWith "config.piggui"
          ("\x7b\x22configured_pins\x22:[[5,\x7b\x22Input\x22:\x22None\x22\x7d]]\x7d".data))
        "config.piggui"
      = .ok ⟨[(5, .Input (some .None))]⟩
    ∧ PinFunction.Input (some InputPull.None) ≠ PinFunction.None
    ∧ renderJson (serPinFunction (.Input (some .None)))
        ≠ renderJson (serPinFunction .None) :=
  ⟨rfl, by decide, by decide⟩

theorem strJoin_cons (s : String) (l : List String) :
    String.join (s :: l) = s ++ String.join l := by
  apply String.ext
  simp [String.join_eq, String.data_append]

theorem foldl_append_strJoin (g : BCMPinNumber × PinFunction → String)
    (l : List (BCMPinNumber × PinFunction)) (init : String) :
    l.foldl (fun acc p => acc ++ g p) init = init ++ String.join (l.map g) := by
  induction l generalizing init with
  | nil => simp [String.join, String.append_empty]
  | cons a l ih =>
    simp only [List.foldl_cons, List.map_cons, strJoin_cons]
    rw [ih, String.append_assoc]

/-- Claim C6: rendering an empty `GPIOConfig` yields the fixed "no pins
configured" message; rendering a non-empty one yields the header followed by
one line per entry, in insertion order, each line showing the channel number
and the simplified (tag-only) function name. -/
theorem gpio_config_display_characterization :
    gpioConfigDisplay ⟨[]⟩ = "No Pins are Configured\n"
    ∧ ∀ (p : BCMPinNumber × PinFunction) (ps : List (BCMPinNumber × PinFunction)),
        gpioConfigDisplay ⟨p :: ps⟩
          = "Configured Pins:\n" ++
            String.join ((p :: ps).map (fun e =>
              "\tBCM Pin #: " ++ toString e.1.val ++ " - " ++
                pinFunctionDisplay e.2 ++ "\n")) := by
  refine ⟨rfl, fun p ps => ?_⟩
  show (p :: ps).foldl (fun acc q => acc ++ pinLine q) "Configured Pins:\n" = _
  rw [foldl_append_strJoin pinLine]
  rfl

theorem skipWs_cons {c : Char} (cs : List Char) (h : isWsChar c = false) :
    skipWs (c :: cs) = c :: cs := by
  simp [skipWs, h]

theorem ne_of_isDigit {c d : Char} (h : c.isDigit = true) (hd : d.isDigit = false) :
    ¬(c = d) := by
  intro e
  rw [e, hd] at h
  cases h

theorem isWs_false_of_isDigit {c : Char} (h : c.isDigit = true) : isWsChar c = false := by
  cases hw : isWsChar c with
  | false => rfl
  | true =>
    exfalso
    have hc : ((c = ' ' ∨ c = '\t') ∨ c = '\n') ∨ c = '\r' := by
      simpa [isWsChar] using hw
    rcases hc with ((e | e) | e) | e <;> (rw [e] at h; exact absurd h (by decide))

theorem digitChar_isDigit : ∀ d, d < 10 → (digitChar d).isDigit = true := by decide

theorem digitVal_digitChar : ∀ d, d < 10 → digitVal (digitChar d) = d := by decide

theorem escapeChar_simple {c : Char} (h : simpleChar c = true) : escapeChar c = [c] := by
  have h' : (¬(c = '\x22') ∧ ¬(c = '\\')) ∧ 32 ≤ c.toNat := by
    simpa [simpleChar] using h
  obtain ⟨⟨h1, h2⟩, h3⟩ := h'
  have hlt : ¬(c.toNat < 32) := by omega
  have hn : ¬(c = '\n') := fun e => absurd (e ▸ h3) (by decide)
  have hr : ¬(c = '\r') := fun e => absurd (e ▸ h3) (by decide)
  have ht : ¬(c = '\t') := fun e => absurd (e ▸ h3) (by decide)
  simp [escapeChar, h1, h2, hlt, hn, hr, ht]

theorem escapeStr_simple {s : List Char} (h : allSimple s = true) : escapeStr s = s := by
  induction s with
  | nil => rfl
  | cons c cs ih =>
    have h' : simpleChar c = true ∧ allSimple cs = true := by
      simpa [allSimple, List.all_cons] using h
    show escapeChar c ++ escapeStr cs = c :: cs
    rw [escapeChar_simple h'.1, ih h'.2]
    rfl

theorem parseStringBody_simple {s : List Char} (rest : List Char) (h : allSimple s = true) :
    parseStringBody (s ++ '\x22' :: rest) = .ok (s, rest) := by
  show parseStringGo false (s ++ '\x22' :: rest) = .ok (s, rest)
  induction s with
  | nil => rfl
  | cons c cs ih =>
    have h' : simpleChar c = true ∧ allSimple cs = true := by
      simpa [allSimple, List.all_cons] using h
    have hq : (¬(c = '\x22') ∧ ¬(c = '\\')) ∧ 32 ≤ c.toNat := by
      simpa [simpleChar] using h'.1
    have hlt : ¬(c.toNat < 32) := by omega
    simp only [List.cons_append, parseStringGo, List.append_eq]
    rw [if_neg hq.1.1, if_neg hq.1.2, if_neg hlt, ih h'.2]

theorem natCharsAux_all_digits : ∀ fuel n c, c ∈ natCharsAux fuel n → c.isDigit = true := by
  intro fuel
  induction fuel with
  | zero => intro n c hc; simp [natCharsAux] at hc
  | succ fuel ih =>
    intro n c hc
    rw [natCharsAux] at hc
    by_cases h0 : n = 0
    · simp [h0] at hc
    · rw [if_neg h0] at hc
      rcases List.mem_append.1 hc with h | h
      · exact ih _ _ h
      · have hcd : c = digitChar (n % 10) := by simpa using h
        rw [hcd]
        exact digitChar_isDigit _ (Nat.mod_lt _ (by norm_num))

theorem natChars_all_digits (n : Nat) : ∀ c ∈ natChars n, c.isDigit = true := by
  intro c hc
  rw [natChars] at hc
  by_cases h0 : n = 0
  · rw [if_pos h0] at hc
    have : c = '0' := by simpa using hc
    rw [this]; decide
  · rw [if_neg h0] at hc
    exact natCharsAux_all_digits n n c hc

theorem natChars_ne_nil (n : Nat) : natChars n ≠ [] := by
  rw [natChars]
  by_cases h0 : n = 0
  · simp [h0]
  · rw [if_neg h0]
    cases n with
    | zero => exact absurd rfl h0
    | succ m =>
      rw [natCharsAux, if_neg h0]
      simp

theorem parseDigits_append (ds : List Char) (rest : List Char) (a : Nat)
    (hds : ∀ c ∈ ds, c.isDigit = true) (hrest : notDigitStart rest = true) :
    parseDigits (ds ++ rest) a = (valFold a ds, rest) := by
  revert hds
  induction ds generalizing a with
  | nil =>
    intro _
    cases rest with
    | nil => rfl
    | cons c cs =>
      have hc : c.isDigit = false := by simpa [notDigitStart] using hrest
      simp [parseDigits, hc, valFold]
  | cons d ds ih =>
    intro hds
    have hd : d.isDigit = true := hds d (List.mem_cons_self d ds)
    simp only [List.cons_append, parseDigits, hd, if_true, List.append_eq]
    rw [ih (a * 10 + digitVal d) (fun c h => hds c (List.mem_cons_of_mem d h))]
    rfl

theorem valFold_natCharsAux : ∀ fuel n, n ≤ fuel → ∀ a,
    valFold a (natCharsAux fuel n) = a * 10 ^ (natCharsAux fuel n).length + n := by
  intro fuel
  induction fuel with
  | zero =>
    intro n hn a
    interval_cases n
    simp [natCharsAux, valFold]
  | succ fuel ih =>
    intro n hn a
    by_cases h0 : n = 0
    · subst h0; simp [natCharsAux, valFold]
    · have hdiv : n / 10 < n := Nat.div_lt_self (Nat.pos_of_ne_zero h0) (by norm_num)
      have hle : n / 10 ≤ fuel := by omega
      rw [natCharsAux, if_neg h0]
      have hsplit : valFold a (natCharsAux fuel (n / 10) ++ [digitChar (n % 10)])
          = (valFold a (natCharsAux fuel (n / 10))) * 10 + digitVal (digitChar (n % 10)) := by
        simp [valFold, List.foldl_append]
      rw [hsplit, ih (n / 10) hle a, digitVal_digitChar _ (Nat.mod_lt _ (by norm_num))]
      rw [List.length_append, List.length_singleton]
      have hr : (a * 10 ^ (natCharsAux fuel (n / 10)).length + n / 10) * 10 + n % 10
          = a * (10 ^ (natCharsAux fuel (n / 10)).length * 10) + (10 * (n / 10) + n % 10) := by
        ring
      rw [hr, Nat.div_add_mod, ← pow_succ]

theorem valFold_natChars (n : Nat) : valFold 0 (natChars n) = n := by
  by_cases h0 : n = 0
  · subst h0; decide
  · rw [natChars, if_neg h0, valFold_natCharsAux n n le_rfl 0]
    simp

theorem parseNumBody_natChars (n : Nat) (rest : List Char) (hrest : notDigitStart rest = true) :
    parseNumBody (natChars n ++ rest) = .ok (n, rest) := by
  rcases hcons : natChars n with _ | ⟨c, cs⟩
  · exact absurd hcons (natChars_ne_nil n)
  · have hmem : c ∈ natChars n := by rw [hcons]; exact List.mem_cons_self c cs
    have hc : c.isDigit = true := natChars_all_digits n c hmem
    have hall : ∀ x ∈ cs, x.isDigit = true := fun x hx =>
      natChars_all_digits n x (by rw [hcons]; exact List.mem_cons_of_mem c hx)
    simp only [List.cons_append, parseNumBody, hc, if_true, List.append_eq]
    rw [parseDigits_append cs rest (digitVal c) hall hrest]
    have hv : valFold (digitVal c) cs = n := by
      have h := valFold_natChars n
      rw [hcons] at h
      simpa [valFold] using h
    rw [hv]

theorem renderInt_natCast (n : Nat) : renderInt (n : Int) = natChars n := by
  rw [renderInt, if_neg (Int.not_lt.mpr (Int.natCast_nonneg n)), Int.toNat_natCast]

theorem skipWs_comma (cs : List Char) : skipWs (',' :: cs) = ',' :: cs := rfl

theorem skipWs_rbrack (cs : List Char) : skipWs (']' :: cs) = ']' :: cs := rfl

theorem skipWs_rbrace (cs : List Char) : skipWs ('\x7d' :: cs) = '\x7d' :: cs := rfl

theorem skipWs_quote (cs : List Char) : skipWs ('\x22' :: cs) = '\x22' :: cs := rfl

theorem skipWs_colon (cs : List Char) : skipWs (':' :: cs) = ':' :: cs := rfl

theorem skipWs_lbrack (cs : List Char) : skipWs ('[' :: cs) = '[' :: cs := rfl

theorem pv_digit (fuel : Nat) (c : Char) (cs : List Char) (hc : c.isDigit = true) :
    parseAny (fuel+1) .value (c :: cs)
      = match parseNumBody (c :: cs) with
        | .ok p => .ok (.v (.num (p.1 : Int)), p.2)
        | .error e => .error e := by
  have h1 := ne_of_isDigit hc (show Char.isDigit 'n' = false by decide)
  have h2 := ne_of_isDigit hc (show Char.isDigit 't' = false by decide)
  have h3 := ne_of_isDigit hc (show Char.isDigit 'f' = false by decide)
  have h4 := ne_of_isDigit hc (show Char.isDigit '\x22' = false by decide)
  have h5 := ne_of_isDigit hc (show Char.isDigit '[' = false by decide)
  have h6 := ne_of_isDigit hc (show Char.isDigit '\x7b' = false by decide)
  have h7 := ne_of_isDigit hc (show Char.isDigit '-' = false by decide)
  simp [parseAny, skipWs_cons _ (isWs_false_of_isDigit hc), h1, h2, h3, h4, h5, h6, h7, hc]

theorem pv_num (n : Nat) (fuel : Nat) (rest : List Char) (hrest : notDigitStart rest = true) :
    parseAny (fuel+1) .value (renderJson (.num (n : Int)) ++ rest)
      = .ok (.v (.num (n : Int)), rest) := by
  obtain ⟨c, cs, hcons⟩ : ∃ c cs, natChars n = c :: cs := by
    rcases h : natChars n with _ | ⟨c, cs⟩
    · exact absurd h (natChars_ne_nil n)
    · exact ⟨c, cs, rfl⟩
  have hc : c.isDigit = true :=
    natChars_all_digits n c (by rw [hcons]; exact List.mem_cons_self c cs)
  have hrj : renderJson (.num (n : Int)) = c :: cs := by
    simp only [renderJson]
    rw [renderInt_natCast, hcons]
  rw [hrj, List.cons_append, pv_digit fuel c (cs ++ rest) hc]
  have hnb : parseNumBody (c :: (cs ++ rest)) = .ok (n, rest) := by
    have h := parseNumBody_natChars n rest hrest
    rw [hcons] at h
    simpa using h
  rw [hnb]

theorem pv_pf (f : PinFunction) (fuel : Nat) (rest : List Char) :
    parseAny (fuel+1+1+1) .value (renderJson (serPinFunction f) ++ rest)
      = .ok (.v (serPinFunction f), rest) := by
  cases f <;> try rfl
  case Input p =>
    cases p with
    | none => rfl
    | some q => cases q <;> rfl
  case Output l =>
    cases l with
    | none => rfl
    | some b => cases b <;> rfl

theorem pe_last (fuel : Nat) (cs r2 : List Char) (j : Json)
    (h : parseAny fuel .value cs = .ok (.v j, ']' :: r2)) :
    parseAny (fuel+1) .elems cs = .ok (.es [j], r2) := by
  simp only [parseAny, h, skipWs_rbrack]

theorem pe_cons (fuel : Nat) (cs cs2 r : List Char) (j : Json) (xs : List Json)
    (h1 : parseAny fuel .value cs = .ok (.v j, ',' :: cs2))
    (h2 : parseAny fuel .elems cs2 = .ok (.es xs, r)) :
    parseAny (fuel+1) .elems cs = .ok (.es (j :: xs), r) := by
  simp only [parseAny, h1, skipWs_comma, h2]

theorem pv_arr_cons (fuel : Nat) (c : Char) (cs : List Char)
    (hw : isWsChar c = false) (hne : ¬(c = ']')) :
    parseAny (fuel+1) .value ('[' :: c :: cs)
      = match parseAny fuel .elems (c :: cs) with
        | .ok (.es xs, r3) => .ok (.v (.arr xs), r3)
        | .ok _ => .error "internal mode mismatch"
        | .error e => .error e := by
  simp [parseAny, skipWs_lbrack, skipWs_cons cs hw, hne]

theorem pv_entry (n : BCMPinNumber) (f : PinFunction) (fuel : Nat) (rest : List Char) :
    parseAny (fuel+1+1+1+1+1+1) .value (renderJson (pinJson (n, f)) ++ rest)
      = .ok (.v (pinJson (n, f)), rest) := by
  obtain ⟨c, cs, hcons⟩ : ∃ c cs, natChars n.val = c :: cs := by
    rcases h : natChars n.val with _ | ⟨c, cs⟩
    · exact absurd h (natChars_ne_nil _)
    · exact ⟨c, cs, rfl⟩
  have hc : c.isDigit = true :=
    natChars_all_digits _ c (by rw [hcons]; exact List.mem_cons_self c cs)
  have hnum : renderJson (.num ((n.val : Nat) : Int)) = c :: cs := by
    simp only [renderJson]
    rw [renderInt_natCast, hcons]
  have hb : renderJson (pinJson (n, f)) ++ rest
      = '[' :: c :: (cs ++ (',' :: (renderJson (serPinFunction f) ++ (']' :: rest)))) := by
    simp only [pinJson, renderJson, renderElemsJson, List.cons_append,
      List.append_assoc, List.nil_append, List.singleton_append]
    rw [renderInt_natCast, hcons]
    simp
  rw [hb, pv_arr_cons _ c _ (isWs_false_of_isDigit hc) (ne_of_isDigit hc (by decide))]
  have h1 : parseAny (fuel+1+1+1+1) .value
      (c :: (cs ++ (',' :: (renderJson (serPinFunction f) ++ (']' :: rest)))))
      = .ok (.v (.num ((n.val : Nat) : Int)),
          ',' :: (renderJson (serPinFunction f) ++ (']' :: rest))) := by
    have h0 := pv_num n.val (fuel+1+1+1)
      (',' :: (renderJson (serPinFunction f) ++ (']' :: rest))) rfl
    rw [hnum, List.cons_append] at h0
    exact h0
  have h2 : parseAny (fuel+1+1+1+1) .elems
      (renderJson (serPinFunction f) ++ (']' :: rest))
      = .ok (.es [serPinFunction f], rest) :=
    pe_last _ _ _ _ (pv_pf f fuel (']' :: rest))
  rw [pe_cons _ _ _ _ _ _ h1 h2]
  rfl

theorem pe_pins : ∀ (ps : List (BCMPinNumber × PinFunction)) (p : BCMPinNumber × PinFunction)
    (fuel : Nat) (rest : List Char),
    parseAny (fuel + 7 * (p :: ps).length) .elems
        (renderElemsJson ((p :: ps).map pinJson) ++ (']' :: rest))
      = .ok (.es ((p :: ps).map pinJson), rest) := by
  intro ps
  induction ps with
  | nil =>
    intro p fuel rest
    simp only [List.length_cons, List.length_nil, List.map_cons, List.map_nil, renderElemsJson]
    rw [show fuel + 7 * (0 + 1) = (fuel+1+1+1+1+1+1) + 1 from by ring]
    exact pe_last _ _ _ _ (pv_entry p.1 p.2 fuel (']' :: rest))
  | cons q ps ih =>
    intro p fuel rest
    simp only [List.length_cons, List.map_cons, renderElemsJson, List.cons_append,
      List.append_assoc]
    rw [show fuel + 7 * (ps.length + 1 + 1) = ((fuel + 6) + 7 * (ps.length + 1)) + 1 from by ring]
    have h1 : parseAny ((fuel + 6) + 7 * (ps.length + 1)) .value
        (renderJson (pinJson p) ++
          (',' :: (renderElemsJson (pinJson q :: ps.map pinJson) ++ (']' :: rest))))
        = .ok (.v (pinJson p),
            ',' :: (renderElemsJson (pinJson q :: ps.map pinJson) ++ (']' :: rest))) := by
      rw [show (fuel + 6) + 7 * (ps.length + 1) = (fuel + 7 * ps.length + 7)+1+1+1+1+1+1 from by ring]
      exact pv_entry p.1 p.2 _ _
    have h2 : parseAny ((fuel + 6) + 7 * (ps.length + 1)) .elems
        (renderElemsJson (pinJson q :: ps.map pinJson) ++ (']' :: rest))
        = .ok (.es (pinJson q :: ps.map pinJson), rest) := by
      have h := ih q (fuel + 6) rest
      simp only [List.length_cons, List.map_cons] at h
      exact h
    exact pe_cons _ _ _ _ _ _ h1 h2

theorem skipWs_lbrace (cs : List Char) : skipWs ('\x7b' :: cs) = '\x7b' :: cs := rfl

theorem pv_obj_cons (fuel : Nat) (c : Char) (cs : List Char)
    (hw : isWsChar c = false) (hne : ¬(c = '\x7d')) :
    parseAny (fuel+1) .value ('\x7b' :: c :: cs)
      = match parseAny fuel .members (c :: cs) with
        | .ok (.ms ms, r3) => .ok (.v (.obj ms), r3)
        | .ok _ => .error "internal mode mismatch"
        | .error e => .error e := by
  simp [parseAny, skipWs_lbrace, skipWs_cons cs hw, hne]

theorem pm_single (fuel : Nat) (k : List Char) (cs2 rest : List Char) (v : Json)
    (hk : allSimple k = true)
    (hv : parseAny fuel .value cs2 = .ok (.v v, '\x7d' :: rest)) :
    parseAny (fuel+1) .members ('\x22' :: (escapeStr k ++ ('\x22' :: ':' :: cs2)))
      = .ok (.ms [(k, v)], rest) := by
  simp only [parseAny, escapeStr_simple hk, parseStringBody_simple _ hk,
    skipWs_colon, hv, skipWs_rbrace]

theorem pv_obj_single (fuel : Nat) (k : List Char) (rest : List Char) (v : Json)
    (hk : allSimple k = true)
    (hv : parseAny (fuel+1) .value (renderJson v ++ ('\x7d' :: rest)) = .ok (.v v, '\x7d' :: rest)) :
    parseAny (fuel+1+1+1) .value (renderJson (.obj [(k, v)]) ++ rest)
      = .ok (.v (.obj [(k, v)]), rest) := by
  have hb : renderJson (.obj [(k, v)]) ++ rest
      = '\x7b' :: ('\x22' :: (escapeStr k ++ ('\x22' :: ':' :: (renderJson v ++ ('\x7d' :: rest))))) := by
    simp [renderJson, renderMembersJson, List.cons_append, List.append_assoc]
  rw [hb, pv_obj_cons _ '\x22' _ (by decide) (by decide)]
  rw [pm_single (fuel+1) k (renderJson v ++ ('\x7d' :: rest)) rest v hk hv]

theorem renderElems_pins_head (p : BCMPinNumber × PinFunction)
    (ps : List (BCMPinNumber × PinFunction)) :
    ∃ t, renderElemsJson ((p :: ps).map pinJson) = '[' :: t := by
  cases ps <;>
    simp [renderElemsJson, pinJson, renderJson, List.cons_append, List.append_assoc]

theorem pv_pins_arr (p : BCMPinNumber × PinFunction) (ps : List (BCMPinNumber × PinFunction))
    (fuel : Nat) (rest : List Char) :
    parseAny ((fuel + 7 * (p :: ps).length) + 1) .value
      (renderJson (.arr ((p :: ps).map pinJson)) ++ rest)
      = .ok (.v (.arr ((p :: ps).map pinJson)), rest) := by
  obtain ⟨t, ht⟩ := renderElems_pins_head p ps
  have hb : renderJson (.arr ((p :: ps).map pinJson)) ++ rest
      = '[' :: '[' :: (t ++ (']' :: rest)) := by
    simp only [renderJson, List.cons_append, List.append_assoc, List.singleton_append]
    rw [ht]
    simp
  rw [hb, pv_arr_cons _ '[' _ (by decide) (by decide)]
  have hp := pe_pins ps p fuel rest
  rw [ht, List.cons_append] at hp
  rw [hp]

theorem pv_doc (c : GPIOConfig) (fuel : Nat) (rest : List Char) :
    parseAny (fuel + 7 * c.configured_pins.length + 3) .value
      (renderJson (serGPIOConfig c) ++ rest)
      = .ok (.v (serGPIOConfig c), rest) := by
  cases hp : c.configured_pins with
  | nil =>
    simp only [serGPIOConfig, hp, List.map_nil, List.length_nil, Nat.mul_zero, Nat.add_zero]
    rfl
  | cons p ps =>
    simp only [serGPIOConfig, hp]
    rw [show fuel + 7 * (p :: ps).length + 3 = ((fuel + 7 * (p :: ps).length)+1)+1+1 from by ring]
    exact pv_obj_single (fuel + 7 * (p :: ps).length) _ rest _ (by decide)
      (pv_pins_arr p ps fuel ('\x7d' :: rest))

theorem renderEntry_len_pos (p : BCMPinNumber × PinFunction) :
    1 ≤ (renderJson (pinJson p)).length := by
  simp [pinJson, renderJson]

theorem renderElems_pins_len (pins : List (BCMPinNumber × PinFunction)) :
    pins.length ≤ (renderElemsJson (pins.map pinJson)).length := by
  induction pins with
  | nil => simp [renderElemsJson]
  | cons p ps ih =>
    cases ps with
    | nil =>
      simpa [renderElemsJson] using renderEntry_len_pos p
    | cons q ps2 =>
      simp only [List.map_cons, renderElemsJson, List.length_append, List.length_cons]
      have h1 := renderEntry_len_pos p
      have h2 := ih
      simp only [List.map_cons, renderElemsJson, List.length_cons] at h2
      omega

theorem doc_len_ge (c : GPIOConfig) :
    c.configured_pins.length ≤ (renderJson (serGPIOConfig c)).length := by
  have h := renderElems_pins_len c.configured_pins
  simp only [serGPIOConfig, renderJson, renderMembersJson, List.length_cons,
    List.length_append, List.singleton_append, List.cons_append]
  omega

theorem parseJson_render (c : GPIOConfig) :
    parseJson (renderJson (serGPIOConfig c)) = .ok (serGPIOConfig c) := by
  have hlen : 7 * c.configured_pins.length + 3
      ≤ 8 * (renderJson (serGPIOConfig c)).length + 8 := by
    have := doc_len_ge c
    omega
  obtain ⟨k, hk⟩ := Nat.le.dest hlen
  have hfuel : 8 * (renderJson (serGPIOConfig c)).length + 8
      = k + 7 * c.configured_pins.length + 3 := by omega
  rw [parseJson, hfuel]
  have hpd := pv_doc c k []
  rw [List.append_nil] at hpd
  rw [hpd]
  rfl

theorem deserPF_ser (f : PinFunction) : deserPinFunction (serPinFunction f) = .ok f := by
  cases f <;> try rfl
  case Input p =>
    cases p with
    | none => rfl
    | some q => cases q <;> rfl
  case Output l =>
    cases l with
    | none => rfl
    | some b => cases b <;> rfl

theorem deserPin_ser (e : BCMPinNumber × PinFunction) : deserPin (pinJson e) = .ok e := by
  obtain ⟨n, f⟩ := e
  have hcond : 0 ≤ ((n.val : Nat) : Int) ∧ ((n.val : Nat) : Int) < 256 :=
    ⟨Int.natCast_nonneg _, by exact_mod_cast n.isLt⟩
  simp [pinJson, deserPin, deserU8, hcond, deserPF_ser, Int.toNat_natCast]

theorem deserPins_ser (l : List (BCMPinNumber × PinFunction)) :
    deserPins (l.map pinJson) = .ok l := by
  induction l with
  | nil => rfl
  | cons p ps ih => simp [deserPins, deserPin_ser, ih]

theorem deser_ser (c : GPIOConfig) : deserGPIOConfig (serGPIOConfig c) = .ok c := by
  simp [serGPIOConfig, deserGPIOConfig, findConfiguredPins, deserVecPins, deserPins_ser]

/-- Claim C1: for every `GPIOConfig`, saving it to a path and then loading
from that path succeeds and yields a `GPIOConfig` whose `configured_pins`
sequence equals the original, pair for pair and in order (the whole structure
is reproduced). -/
theorem load_save_roundtrip (c : GPIOConfig) (fs : Fs) (path : String) :
    GPIOConfig.load (GPIOConfig.save c fs path) path = .ok c := by
  have h1 : (GPIOConfig.save c fs path) path = some (renderJson (serGPIOConfig c)) := by
    simp [GPIOConfig.save]
  simp only [GPIOConfig.load, h1, parseJson_render, deser_ser]
